import Mathlib

/-!
Verification development for the multi-label tongue-classification evaluation
script (`multi_classify.py`).  Python strings are embedded as `List Char`
(`PyStr`); the parsing, loading, alignment and per-class-accuracy logic is
translated function-by-function from the source.  Fallible operations return
`Except` values; the printed diagnostics of the script are modelled as
explicitly returned values.
-/

namespace MultiClassify

/-- Embedding of a Python string as a list of characters. -/
abbrev PyStr := List Char

/-- Whitespace as stripped by Python `str.strip()` (the cases relevant here). -/
def pySpace (c : Char) : Bool := c == ' ' || c == '\t' || c == '\n' || c == '\r'

/-- Strip characters satisfying `p` from the left end. -/
def lstripP (p : Char → Bool) (s : PyStr) : PyStr := s.dropWhile p

/-- Strip characters satisfying `p` from the right end. -/
def rstripP (p : Char → Bool) (s : PyStr) : PyStr := (s.reverse.dropWhile p).reverse

/-- Python `s.strip(chars)`: strip from both ends. -/
def stripP (p : Char → Bool) (s : PyStr) : PyStr := rstripP p (lstripP p s)

/-- Python `s.strip()`. -/
def pyStrip (s : PyStr) : PyStr := stripP pySpace s

/-- The asterisk character test, for Python `s.strip('*')`. -/
def starChar (c : Char) : Bool := c == '*'

/-- Python `s.strip('*')`. -/
def stripStars (s : PyStr) : PyStr := stripP starChar s

/-- Python `s.startswith(pre)`. -/
def pyStartsWith (s pre : PyStr) : Bool := pre.isPrefixOf s

/-- Python `s.endswith(suf)`. -/
def pyEndsWith (s suf : PyStr) : Bool := suf.isSuffixOf s

/-- The two-character emphasis marker `**`. -/
def marker : PyStr := ("**").data

/-- The sentinel "no finding" label `正常`. -/
def sentinel : PyStr := ("正常").data

/-- Python `text.split(chr(10))`: split into lines at newline characters. -/
def splitLines : PyStr → List PyStr
  | [] => [[]]
  | c :: cs =>
    if c == '\n' then [] :: splitLines cs
    else
      match splitLines cs with
      | [] => [[c]]
      | l :: ls => (c :: l) :: ls

/-- The vocabulary `all_classes` of the script (sentinel already removed). -/
def all_classes : List PyStr :=
  (["齿痕舌", "裂纹舌", "瘀点舌", "剥苔舌", "腻苔舌", "薄苔舌", "灰黑舌"]).map String.data

/-- The marker test applied by `parse_labels` to an (already stripped) line. -/
def isMarked (line : PyStr) : Bool := pyStartsWith line marker && pyEndsWith line marker

/-- Python `set.add`: insert a string into a set of strings (modelled as a
duplicate-free list; membership is what the claims use). -/
def insertUnknown (s : List PyStr) (x : PyStr) : List PyStr :=
  if x ∈ s then s else s ++ [x]

/-- Body of the per-line loop of `parse_labels`: strip the line, test the
marker, strip asterisks and whitespace, then classify the content as a known
label, the sentinel, or an unknown token.  The accumulator carries the
`labels` list and the `unknown_labels` set. -/
def parseStep (classes : List PyStr) (acc : List PyStr × List PyStr) (rawLine : PyStr) :
    List PyStr × List PyStr :=
  let line := pyStrip rawLine
  if isMarked line then
    let label := pyStrip (stripStars line)
    if label ∈ classes then (acc.1 ++ [label], acc.2)
    else if label ≠ sentinel then (acc.1, insertUnknown acc.2 label)
    else acc
  else acc

/-- `parse_labels` of the script.  The Python function returns only the
`labels` list and prints the `unknown_labels` set; the pair returned here
exposes both (first component: `labels`, second: `unknown_labels`). -/
def parse_labels (text : PyStr) (classes : List PyStr) : List PyStr × List PyStr :=
  if text = [] then ([], [])
  else (splitLines text).foldl (parseStep classes) ([], [])

/-- `parse_labels` applied to a possibly-`None` text (`if not text` returns
early on `None` exactly as on the empty string). -/
def parse_labels_o (text : Option PyStr) (classes : List PyStr) :
    List PyStr × List PyStr :=
  match text with
  | none => ([], [])
  | some t => parse_labels t classes

/-- The pair of entries of column `i` for each row of the two matrices
(`Y_true[:, i]` zipped with `Y_pred[:, i]`). -/
def columnPairs (Yt Yp : List (List ℤ)) (i : Nat) : List (ℤ × ℤ) :=
  List.zipWith (fun rt rp => (rt.getD i 0, rp.getD i 0)) Yt Yp

/-- `TP` of `compute_per_class_accuracy`: rows where truth and prediction are
both 1 in column `i`. -/
def countTP (Yt Yp : List (List ℤ)) (i : Nat) : Nat :=
  (columnPairs Yt Yp i).countP (fun p => p.1 == 1 && p.2 == 1)

/-- `TN` of `compute_per_class_accuracy`. -/
def countTN (Yt Yp : List (List ℤ)) (i : Nat) : Nat :=
  (columnPairs Yt Yp i).countP (fun p => p.1 == 0 && p.2 == 0)

/-- `FP` of `compute_per_class_accuracy`. -/
def countFP (Yt Yp : List (List ℤ)) (i : Nat) : Nat :=
  (columnPairs Yt Yp i).countP (fun p => p.1 == 0 && p.2 == 1)

/-- `FN` of `compute_per_class_accuracy`. -/
def countFN (Yt Yp : List (List ℤ)) (i : Nat) : Nat :=
  (columnPairs Yt Yp i).countP (fun p => p.1 == 1 && p.2 == 0)

/-- Loop body of `compute_per_class_accuracy` for column `i`:
`(TP + TN) / (TP + TN + FP + FN)` when the denominator is positive, else 0. -/
def perClassAccuracy (Yt Yp : List (List ℤ)) (i : Nat) : ℚ :=
  let d := countTP Yt Yp i + countTN Yt Yp i + countFP Yt Yp i + countFN Yt Yp i
  if 0 < d then ((countTP Yt Yp i + countTN Yt Yp i : Nat) : ℚ) / (d : ℚ) else 0

/-- `compute_per_class_accuracy` of the script: the per-class accuracy mapping,
keyed by class name, one entry per class (column) in vocabulary order. -/
def compute_per_class_accuracy (Yt Yp : List (List ℤ)) (classes : List PyStr) :
    List (PyStr × ℚ) :=
  classes.enum.map (fun p => (p.2, perClassAccuracy Yt Yp p.1))

/-- Modelled from the spec: the multi-hot encoding of one label set over the
vocabulary.  The source delegates this to the external
`sklearn.preprocessing.MultiLabelBinarizer` (called with the explicit class
list `all_classes`); per the spec it emits, for each vocabulary category in
fixed vocabulary order, 1 if the category is present in the record's label
set and 0 otherwise. -/
def encodeRow (vocab : List PyStr) (labels : List PyStr) : List ℤ :=
  vocab.map (fun c => if c ∈ labels then 1 else 0)

/-- Modelled from the spec: `encode_from_sets`, the multi-hot encoding of a
collection of label sets (`MultiLabelBinarizer.fit_transform`), one row per
record, in input row order. -/
def encode_from_sets (labelSets : List (List PyStr)) (vocab : List PyStr) :
    List (List ℤ) :=
  labelSets.map (encodeRow vocab)

/-- Decoding a multi-hot row back to labels: the categories at the columns
holding bit 1, in vocabulary order. -/
def decodeRow (vocab : List PyStr) (row : List ℤ) : List PyStr :=
  (vocab.zip row).filterMap (fun p => if p.2 = 1 then some p.1 else none)

/-- Embedding of the pandas data frame read from the ground-truth Excel file:
named columns of integer cells, plus the row count. -/
structure DataFrame where
  columns : List (PyStr × List ℤ)
  nrows : Nat

/-- Python `cls in df.columns`. -/
def DataFrame.hasCol (df : DataFrame) (c : PyStr) : Bool :=
  df.columns.any (fun p => p.1 == c)

/-- The cells of the column named `c` (empty when absent). -/
def DataFrame.colValues (df : DataFrame) (c : PyStr) : List ℤ :=
  match df.columns.find? (fun p => p.1 == c) with
  | some p => p.2
  | none => []

/-- `load_true_labels_from_excel` of the script, after the external
`pd.read_excel` call: raise on the first vocabulary class missing from the
frame's columns, otherwise `df[classes].values` — the matrix whose row `r`
lists the row-`r` cells of the class columns in vocabulary order. -/
def load_true_labels_from_excel (df : DataFrame) (classes : List PyStr) :
    Except PyStr (List (List ℤ)) :=
  match classes.find? (fun c => !(df.hasCol c)) with
  | some c => Except.error (("Excel 文件中缺少类别列: ").data ++ c)
  | none =>
      Except.ok ((List.range df.nrows).map
        (fun r => classes.map (fun c => (df.colValues c).getD r 0)))

/-- Embedding of one successfully JSON-decoded prediction record: the
`predict` field may be absent (`data.get` then yields the default). -/
structure PredRecord where
  predict : Option PyStr
  deriving DecidableEq

/-- Labels extracted from one decoded record: `parse_labels(data.get(…, ''))`. -/
def recordLabels (classes : List PyStr) (r : PredRecord) : List PyStr :=
  (parse_labels (r.predict.getD []) classes).1

/-- Loop body of `load_pred_labels_from_json`: the accumulator carries the
`pred_labels` rows, the diagnostic line numbers of decode failures, and the
current 1-based line number (`enumerate(f, 1)`). -/
def predStep (classes : List PyStr)
    (acc : List (List PyStr) × List Nat × Nat) (o : Option PredRecord) :
    List (List PyStr) × List Nat × Nat :=
  match o with
  | none => (acc.1, acc.2.1 ++ [acc.2.2], acc.2.2 + 1)
  | some r => (acc.1 ++ [recordLabels classes r], acc.2.1, acc.2.2 + 1)

/-- `load_pred_labels_from_json` of the script, after file reading and JSON
decoding: the input is the per-line decode outcome (`none` = a
`json.JSONDecodeError` on that line).  A failing line is skipped and its
1-based line number recorded as a diagnostic; a decoded record contributes
one row of parsed labels.  Returns `(pred_labels, diagnostic line numbers)`. -/
def load_pred_labels_from_json (lines : List (Option PredRecord))
    (classes : List PyStr) : List (List PyStr) × List Nat :=
  let res := lines.foldl (predStep classes) ([], [], 1)
  (res.1, res.2.1)

/-- The alignment error message of `main`, naming both row counts. -/
def alignErrorMsg (n m : Nat) : PyStr :=
  ("真实标签样本数量 (").data ++ Nat.toDigits 10 n
    ++ (") 与预测标签样本数量 (").data ++ Nat.toDigits 10 m
    ++ (") 不一致。请检查数据文件。").data

/-- The part of `main` after the two loads: compare the loaded row counts and
raise the alignment `ValueError` on mismatch; only in the success branch is
the prediction matrix encoded and any metric computed (here: the per-class
accuracy mapping of `evaluate`). -/
def mainAfterLoad (Ytrue : List (List ℤ)) (predLabels : List (List PyStr)) :
    Except PyStr (List (List ℤ) × List (PyStr × ℚ)) :=
  if Ytrue.length ≠ predLabels.length then
    Except.error (alignErrorMsg Ytrue.length predLabels.length)
  else
    let Ypred := encode_from_sets predLabels all_classes
    Except.ok (Ypred, compute_per_class_accuracy Ytrue Ypred all_classes)

/-! ### Helper lemmas -/

lemma mem_insertUnknown (s : List PyStr) (x : PyStr) : x ∈ insertUnknown s x := by
  unfold insertUnknown
  by_cases h : x ∈ s
  · simp [h]
  · simp [h]

lemma foldl_parseStep_unmarked (classes : List PyStr) :
    ∀ (ls : List PyStr) (acc : List PyStr × List PyStr),
      (∀ l ∈ ls, isMarked (pyStrip l) = false) →
      ls.foldl (parseStep classes) acc = acc := by
  intro ls
  induction ls with
  | nil => intro acc _; rfl
  | cons l t ih =>
    intro acc h
    have hl : isMarked (pyStrip l) = false := h l (by simp)
    have hstep : parseStep classes acc l = acc := by
      simp [parseStep, hl]
    rw [List.foldl_cons, hstep]
    exact ih acc (fun x hx => h x (by simp [hx]))

lemma encodeRow_congr (vocab : List PyStr) {L L' : List PyStr}
    (h : ∀ c, c ∈ L ↔ c ∈ L') :
    encodeRow vocab L = encodeRow vocab L' := by
  unfold encodeRow
  apply List.map_congr_left
  intro c _
  simp [h c]

/-! ### C3: the marker test and the empty-interior line -/

/-- C3 counterexample: on the line consisting of four asterisks (marker pair
with empty interior) the code adds the empty string to the unknown-token set,
contradicting the claim that such a line contributes nothing to it. -/
theorem parse_labels_empty_marker_cex :
    (parse_labels ("****").data all_classes).2 = [[]] := by decide

/-- C3 (amended): a trimmed line is processed as a label assertion iff it
begins and ends with the two-character marker — content emptiness is not part
of the test; a line whose marker-stripped trimmed content is empty adds
nothing to the label list, but its empty content is added to the
unknown-token set (the empty string is not the sentinel; it is assumed not to
be a vocabulary entry). -/
theorem parseStep_marker_condition (classes : List PyStr)
    (acc : List PyStr × List PyStr) (rawLine : PyStr) :
    (isMarked (pyStrip rawLine) = false → parseStep classes acc rawLine = acc)
    ∧ (isMarked (pyStrip rawLine) = true →
        pyStrip (stripStars (pyStrip rawLine)) = [] →
        ([] : PyStr) ∉ classes →
        parseStep classes acc rawLine = (acc.1, insertUnknown acc.2 [])) := by
  constructor
  · intro h
    simp [parseStep, h]
  · intro hmark hlbl hcls
    have hsent : ¬(([] : PyStr) = sentinel) := by decide
    simp [parseStep, hmark, hlbl, hcls, hsent]

/-- C3 amended-theorem witness at the concrete line of four asterisks. -/
theorem parseStep_marker_condition_witness :
    parseStep all_classes ([], []) (("****").data) = ([], [[]]) :=
  (parseStep_marker_condition all_classes ([], []) (("****").data)).2
    (by decide) (by decide) (by decide)

/-! ### C4: list result, duplicates, and set semantics at encoding -/

/-- C4 counterexample: the extraction result is a list in which a duplicated
category mention appears twice — duplicates do not collapse in the returned
value. -/
theorem parse_labels_duplicates_cex :
    (parse_labels ("**齿痕舌**\n**齿痕舌**").data all_classes).1
        = [("齿痕舌").data, ("齿痕舌").data]
      ∧ ¬ ((parse_labels ("**齿痕舌**\n**齿痕舌**").data all_classes).1.Nodup) := by
  decide

/-- C4 (amended): extraction returns a label list that may contain duplicate
mentions; set semantics is realized at the encoding boundary: the multi-hot
encoding of the extracted list equals that of its deduplication, and more
generally the encoding depends only on set membership, so duplicates and
extraction order never affect the encoded row. -/
theorem encode_parse_labels_dedup (vocab classes : List PyStr) (text : PyStr) :
    encodeRow vocab (parse_labels text classes).1
        = encodeRow vocab ((parse_labels text classes).1).dedup
      ∧ ∀ L L' : List PyStr, (∀ c, c ∈ L ↔ c ∈ L') →
          encodeRow vocab L = encodeRow vocab L' := by
  constructor
  · exact encodeRow_congr vocab (fun c => (List.mem_dedup).symm)
  · intro L L' h
    exact encodeRow_congr vocab h

/-- C4 amended-theorem witness: encoding collapses a concrete duplicate. -/
theorem encode_parse_labels_dedup_witness :
    encodeRow all_classes [("齿痕舌").data, ("齿痕舌").data]
      = encodeRow all_classes [("齿痕舌").data] :=
  (encode_parse_labels_dedup all_classes all_classes []).2
    [("齿痕舌").data, ("齿痕舌").data] [("齿痕舌").data] (by intro c; simp)

/-! ### C5: the sentinel and unknown tokens -/

/-- C5: on a marked line whose stripped content is the sentinel (assumed, per
the data model, absent from the vocabulary), the parse step changes nothing;
on a marked line whose stripped content is neither in the vocabulary nor the
sentinel, the content is added to the unknown-token set and the label list is
unchanged. -/
theorem parseStep_sentinel_unknown (classes : List PyStr)
    (acc : List PyStr × List PyStr) (rawLine : PyStr)
    (hmark : isMarked (pyStrip rawLine) = true) :
    (pyStrip (stripStars (pyStrip rawLine)) = sentinel → sentinel ∉ classes →
        parseStep classes acc rawLine = acc)
    ∧ (∀ l, pyStrip (stripStars (pyStrip rawLine)) = l → l ∉ classes →
        l ≠ sentinel →
        parseStep classes acc rawLine = (acc.1, insertUnknown acc.2 l)
          ∧ l ∈ (parseStep classes acc rawLine).2
          ∧ (parseStep classes acc rawLine).1 = acc.1) := by
  constructor
  · intro hlbl hcls
    simp [parseStep, hmark, hlbl, hcls]
  · intro l hlbl hcls hsent
    have hstep : parseStep classes acc rawLine = (acc.1, insertUnknown acc.2 l) := by
      simp [parseStep, hmark, hlbl, hcls, hsent]
    refine ⟨hstep, ?_, ?_⟩
    · rw [hstep]
      exact mem_insertUnknown acc.2 l
    · rw [hstep]

/-- C5 witness: the sentinel line is dropped and a concrete unknown token is
recorded, at concrete inputs. -/
theorem parseStep_sentinel_unknown_witness :
    parseStep all_classes ([], []) (("**正常**").data) = ([], []) :=
  (parseStep_sentinel_unknown all_classes ([], []) (("**正常**").data)
    (by decide)).1 (by decide) (by decide)

/-! ### C8: empty, null, or marker-free text -/

/-- C8: for empty text, and for any text all of whose lines fail the
emphasis-marker test after trimming, extraction returns an empty label list
and an empty unknown-token set; a null (`None`) text does the same. -/
theorem parse_labels_no_marked_lines (text : PyStr) (classes : List PyStr)
    (h : ∀ line ∈ splitLines text, isMarked (pyStrip line) = false) :
    parse_labels text classes = ([], [])
      ∧ parse_labels_o none classes = ([], []) := by
  refine ⟨?_, rfl⟩
  unfold parse_labels
  by_cases htext : text = []
  · simp [htext]
  · rw [if_neg htext]
    exact foldl_parseStep_unmarked classes (splitLines text) ([], []) h

/-- C8 witness at a concrete two-line text without markers. -/
theorem parse_labels_no_marked_lines_witness :
    parse_labels ("hello\nworld").data all_classes = ([], [])
      ∧ parse_labels_o none all_classes = ([], []) :=
  parse_labels_no_marked_lines (("hello\nworld").data) all_classes (by decide)

/-! ### C1: per-class accuracy -/

lemma getD_binary (row : List ℤ) (i : Nat)
    (h : ∀ x ∈ row, x = 0 ∨ x = 1) :
    row.getD i 0 = 0 ∨ row.getD i 0 = 1 := by
  induction row generalizing i with
  | nil => left; rfl
  | cons a t ih =>
    cases i with
    | zero => exact h a (by simp)
    | succ n =>
      rw [List.getD_cons_succ]
      exact ih n (fun x hx => h x (by simp [hx]))

lemma exists_of_mem_zipWith {α β γ : Type} (f : α → β → γ) :
    ∀ (l1 : List α) (l2 : List β), ∀ x ∈ List.zipWith f l1 l2,
      ∃ a, a ∈ l1 ∧ ∃ b, b ∈ l2 ∧ x = f a b
  | [], _, x, hx => by simp at hx
  | _ :: _, [], x, hx => by simp at hx
  | a :: t1, b :: t2, x, hx => by
    simp only [List.zipWith_cons_cons, List.mem_cons] at hx
    rcases hx with rfl | hx
    · exact ⟨a, by simp, b, by simp, rfl⟩
    · obtain ⟨a', ha, b', hb, rfl⟩ := exists_of_mem_zipWith f t1 t2 x hx
      exact ⟨a', by simp [ha], b', by simp [hb], rfl⟩

lemma columnPairs_binary (Yt Yp : List (List ℤ)) (i : Nat)
    (hbt : ∀ row ∈ Yt, ∀ x ∈ row, x = 0 ∨ x = 1)
    (hbp : ∀ row ∈ Yp, ∀ x ∈ row, x = 0 ∨ x = 1) :
    ∀ p ∈ columnPairs Yt Yp i, (p.1 = 0 ∨ p.1 = 1) ∧ (p.2 = 0 ∨ p.2 = 1) := by
  intro p hp
  unfold columnPairs at hp
  obtain ⟨rt, hrt, rp, hrp, rfl⟩ := exists_of_mem_zipWith _ Yt Yp p hp
  exact ⟨getD_binary rt i (hbt rt hrt), getD_binary rp i (hbp rp hrp)⟩

lemma countP_four_partition (ps : List (ℤ × ℤ))
    (h : ∀ p ∈ ps, (p.1 = 0 ∨ p.1 = 1) ∧ (p.2 = 0 ∨ p.2 = 1)) :
    ps.countP (fun p => p.1 == 1 && p.2 == 1)
      + ps.countP (fun p => p.1 == 0 && p.2 == 0)
      + ps.countP (fun p => p.1 == 0 && p.2 == 1)
      + ps.countP (fun p => p.1 == 1 && p.2 == 0) = ps.length := by
  induction ps with
  | nil => rfl
  | cons p t ih =>
    obtain ⟨h1, h2⟩ := h p (by simp)
    have ih' := ih (fun q hq => h q (by simp [hq]))
    simp only [List.countP_cons, List.length_cons]
    rcases h1 with h1 | h1 <;> rcases h2 with h2 | h2 <;>
      simp [h1, h2] <;> omega

/-- C1: for 0/1 matrices with equal row counts, the per-class accuracy of
column `i` equals `(TP + TN) / N` (the denominator `TP+TN+FP+FN` of the code
always equals the row count `N`), and it is `0` in the degenerate case
`N = 0`. -/
theorem compute_per_class_accuracy_correct (Yt Yp : List (List ℤ)) (i : Nat)
    (hlen : Yt.length = Yp.length)
    (hbt : ∀ row ∈ Yt, ∀ x ∈ row, x = 0 ∨ x = 1)
    (hbp : ∀ row ∈ Yp, ∀ x ∈ row, x = 0 ∨ x = 1) :
    perClassAccuracy Yt Yp i
        = ((countTP Yt Yp i + countTN Yt Yp i : Nat) : ℚ) / (Yt.length : ℚ)
      ∧ (Yt.length = 0 → perClassAccuracy Yt Yp i = 0)
      ∧ (∀ classes : List PyStr, i < classes.length →
          (compute_per_class_accuracy Yt Yp classes)[i]?
            = some (classes.getD i [], perClassAccuracy Yt Yp i)) := by
  have hpairs := columnPairs_binary Yt Yp i hbt hbp
  have hsum := countP_four_partition (columnPairs Yt Yp i) hpairs
  have hlenp : (columnPairs Yt Yp i).length = Yt.length := by
    simp [columnPairs, hlen]
  have hN : countTP Yt Yp i + countTN Yt Yp i + countFP Yt Yp i + countFN Yt Yp i
      = Yt.length := by
    unfold countTP countTN countFP countFN
    rw [hsum, hlenp]
  refine ⟨?_, ?_, ?_⟩
  · simp only [perClassAccuracy]
    rw [hN]
    rcases Nat.eq_zero_or_pos Yt.length with h0 | h0
    · rw [h0]
      have hTP : countTP Yt Yp i = 0 := by omega
      have hTN : countTN Yt Yp i = 0 := by omega
      simp [hTP, hTN]
    · rw [if_pos h0]
  · intro h0
    simp only [perClassAccuracy]
    rw [hN, h0]
    simp
  · intro classes hc
    simp only [compute_per_class_accuracy]
    rw [List.getElem?_map, List.getElem?_enum, List.getElem?_eq_getElem hc]
    have hgetD : classes.getD i [] = classes[i] := by
      rw [List.getD_eq_getElem?_getD, List.getElem?_eq_getElem hc]
      rfl
    rw [hgetD]
    rfl

/-- C1 witness: a concrete 2×1 matrix pair with one agreement and one
disagreement in column 0 has per-class accuracy `(TP + TN) / 2 = 1 / 2`. -/
theorem compute_per_class_accuracy_correct_witness :
    perClassAccuracy [[(1 : ℤ)], [0]] [[(1 : ℤ)], [1]] 0 = (1 : ℚ) / 2 := by
  have h := (compute_per_class_accuracy_correct [[(1 : ℤ)], [0]] [[(1 : ℤ)], [1]] 0
    (by decide)
    (by intro row hrow x hx; fin_cases hrow <;> fin_cases hx <;> simp)
    (by intro row hrow x hx; fin_cases hrow <;> fin_cases hx <;> simp)).1
  rw [h]
  norm_num [countTP, countTN, columnPairs]

/-! ### C2: row-count alignment -/

/-- C2: after the two loads, if the truth row count differs from the
prediction row count, the pipeline fails with the alignment error naming both
counts (the error message is, verbatim, a string embedding the decimal
renderings of both counts); metrics live only in the success branch of
`mainAfterLoad`, so the failure occurs before any metric is computed.  If the
counts agree, no alignment error is raised. -/
theorem main_alignment_check (Yt : List (List ℤ)) (pl : List (List PyStr)) :
    (Yt.length ≠ pl.length →
        mainAfterLoad Yt pl = Except.error (alignErrorMsg Yt.length pl.length))
    ∧ (∀ n m, ∃ a b c, alignErrorMsg n m
        = a ++ Nat.toDigits 10 n ++ b ++ Nat.toDigits 10 m ++ c)
    ∧ (Yt.length = pl.length → ∃ r, mainAfterLoad Yt pl = Except.ok r) := by
  refine ⟨?_, ?_, ?_⟩
  · intro h
    simp [mainAfterLoad, h]
  · intro n m
    exact ⟨("真实标签样本数量 (").data, (") 与预测标签样本数量 (").data,
      (") 不一致。请检查数据文件。").data, by simp [alignErrorMsg]⟩
  · intro h
    refine ⟨(encode_from_sets pl all_classes,
      compute_per_class_accuracy Yt (encode_from_sets pl all_classes) all_classes), ?_⟩
    simp [mainAfterLoad, h]

/-- C2 witness: one truth row against zero prediction rows triggers the
alignment error naming the counts 1 and 0. -/
theorem main_alignment_check_witness :
    mainAfterLoad [[(1 : ℤ)]] [] = Except.error (alignErrorMsg 1 0) :=
  (main_alignment_check [[(1 : ℤ)]] []).1 (by decide)

/-! ### C6: multi-hot round-trip -/

lemma decodeRow_encodeRow (V L : List PyStr) :
    decodeRow V (encodeRow V L) = V.filter (fun c => decide (c ∈ L)) := by
  induction V with
  | nil => rfl
  | cons v t ih =>
    by_cases hv : v ∈ L
    · simp [decodeRow, encodeRow, List.filter_cons, hv] at ih ⊢
      exact ih
    · simp [decodeRow, encodeRow, List.filter_cons, hv] at ih ⊢
      exact ih

/-- C6: for a label set contained in the vocabulary, encoding the single
record `[L]` and decoding the resulting row (categories at bit-1 columns)
reproduces exactly the members of `L`; the decoded list is the vocabulary
filtered in vocabulary order, and the encoded matrix depends only on set
membership, never on the order or multiplicity of the input labels. -/
theorem encode_from_sets_roundtrip (V L : List PyStr)
    (hsub : ∀ c ∈ L, c ∈ V) :
    decodeRow V ((encode_from_sets [L] V).getD 0 [])
        = V.filter (fun c => decide (c ∈ L))
      ∧ (∀ c, c ∈ decodeRow V ((encode_from_sets [L] V).getD 0 []) ↔ c ∈ L)
      ∧ (∀ L', (∀ c, c ∈ L' ↔ c ∈ L) →
          encode_from_sets [L'] V = encode_from_sets [L] V) := by
  have hrow : (encode_from_sets [L] V).getD 0 [] = encodeRow V L := rfl
  refine ⟨?_, ?_, ?_⟩
  · rw [hrow, decodeRow_encodeRow]
  · intro c
    rw [hrow, decodeRow_encodeRow]
    simp only [List.mem_filter, decide_eq_true_eq]
    exact ⟨fun h => h.2, fun h => ⟨hsub c h, h⟩⟩
  · intro L' h
    simp only [encode_from_sets, List.map_cons, List.map_nil]
    rw [encodeRow_congr V h]

/-- C6 witness: with vocabulary `[A, B, C]` and labels given in the order
`[C, A]`, the decoded round-trip lists `[A, C]` in vocabulary order. -/
theorem encode_from_sets_roundtrip_witness :
    decodeRow ((["A", "B", "C"]).map String.data)
        ((encode_from_sets [[("C").data, ("A").data]]
          ((["A", "B", "C"]).map String.data)).getD 0 [])
      = [("A").data, ("C").data] :=
  ((encode_from_sets_roundtrip ((["A", "B", "C"]).map String.data)
      [("C").data, ("A").data] (by decide)).1).trans (by decide)

/-! ### C7: schema check of the ground-truth loader -/

/-- C7: loading the truth matrix fails, with the schema error naming a
missing column, exactly when some vocabulary class is absent from the frame's
column names (exact string match); when every class column is present the
result is the `nrows × |classes|` matrix whose entry `(r, j)` is cell `r` of
the column named by class `j`, i.e. the class columns in vocabulary order. -/
theorem load_true_labels_from_excel_spec (df : DataFrame) (classes : List PyStr) :
    ((∃ c ∈ classes, df.hasCol c = false) →
        ∃ c ∈ classes, df.hasCol c = false ∧
          load_true_labels_from_excel df classes
            = Except.error (("Excel 文件中缺少类别列: ").data ++ c))
    ∧ ((∀ c ∈ classes, df.hasCol c = true) →
        ∃ M, load_true_labels_from_excel df classes = Except.ok M
          ∧ M.length = df.nrows
          ∧ (∀ row ∈ M, row.length = classes.length)
          ∧ ∀ r j, r < df.nrows → j < classes.length →
              (M.getD r []).getD j 0
                = (df.colValues (classes.getD j [])).getD r 0) := by
  constructor
  · rintro ⟨c0, hc0, hmiss⟩
    rcases hfind : classes.find? (fun c => !(df.hasCol c)) with _ | c
    · exfalso
      rw [List.find?_eq_none] at hfind
      have := hfind c0 hc0
      simp [hmiss] at this
    · refine ⟨c, List.mem_of_find?_eq_some hfind, ?_, ?_⟩
      · have := List.find?_some hfind
        simpa using this
      · simp [load_true_labels_from_excel, hfind]
  · intro hall
    have hfind : classes.find? (fun c => !(df.hasCol c)) = none := by
      rw [List.find?_eq_none]
      intro c hc
      simp [hall c hc]
    refine ⟨(List.range df.nrows).map
      (fun r => classes.map (fun c => (df.colValues c).getD r 0)),
      by simp [load_true_labels_from_excel, hfind], by simp, ?_, ?_⟩
    · intro row hrow
      obtain ⟨r, _, rfl⟩ := List.mem_map.mp hrow
      simp
    · intro r j hr hj
      have h1 : ((List.range df.nrows).map
          (fun r => classes.map (fun c => (df.colValues c).getD r 0))).getD r []
            = classes.map (fun c => (df.colValues c).getD r 0) := by
        rw [List.getD_eq_getElem?_getD, List.getElem?_map, List.getElem?_range hr]
        rfl
      rw [h1, List.getD_eq_getElem?_getD, List.getElem?_map]
      have h2 : classes[j]? = some (classes.getD j []) := by
        rw [List.getD_eq_getElem?_getD, List.getElem?_eq_getElem hj]
        rfl
      rw [h2]
      rfl

/-- C7 witness: a frame holding only a column `A` is rejected when the
vocabulary also demands `B`, with the error naming `B`. -/
theorem load_true_labels_from_excel_spec_witness :
    ∃ c ∈ [("A").data, ("B").data],
      DataFrame.hasCol ⟨[(("A").data, [0, 1])], 2⟩ c = false ∧
        load_true_labels_from_excel ⟨[(("A").data, [0, 1])], 2⟩
            [("A").data, ("B").data]
          = Except.error (("Excel 文件中缺少类别列: ").data ++ c) :=
  (load_true_labels_from_excel_spec ⟨[(("A").data, [0, 1])], 2⟩
    [("A").data, ("B").data]).1 (by decide)

/-! ### C9 and C10: prediction loading, skipped lines, missing fields -/

lemma foldl_predStep_spec (classes : List PyStr) :
    ∀ (lines : List (Option PredRecord)) (rows : List (List PyStr))
      (diags : List Nat) (n : Nat),
      lines.foldl (predStep classes) (rows, diags, n)
        = (rows ++ (lines.filterMap id).map (recordLabels classes),
           diags ++ (List.enumFrom n lines).filterMap
             (fun p => match p.2 with | none => some p.1 | some _ => none),
           n + lines.length) := by
  intro lines
  induction lines with
  | nil => intro rows diags n; simp
  | cons o t ih =>
    intro rows diags n
    cases o with
    | none =>
      rw [List.foldl_cons]
      show t.foldl (predStep classes) (rows, diags ++ [n], n + 1) = _
      rw [ih]
      simp [List.enumFrom_cons]
      omega
    | some r =>
      rw [List.foldl_cons]
      show t.foldl (predStep classes)
        (rows ++ [recordLabels classes r], diags, n + 1) = _
      rw [ih]
      simp [List.enumFrom_cons]
      omega

lemma length_filterMap_id (lines : List (Option PredRecord)) :
    (lines.filterMap id).length = lines.countP (fun o => o.isSome) := by
  induction lines with
  | nil => rfl
  | cons o t ih =>
    cases o <;> simp [List.filterMap_cons, List.countP_cons, ih]

/-- C9: a line failing JSON decoding contributes no row — the rows are
exactly the parses of the successfully decoded records, in order, so
processing continues past a failure — its 1-based line number is recorded as
a diagnostic, and every failing line's number appears among the
diagnostics. -/
theorem load_pred_labels_from_json_skips (lines : List (Option PredRecord))
    (classes : List PyStr) :
    (load_pred_labels_from_json lines classes).1
        = (lines.filterMap id).map (recordLabels classes)
      ∧ (load_pred_labels_from_json lines classes).2
          = (List.enumFrom 1 lines).filterMap
              (fun p => match p.2 with | none => some p.1 | some _ => none)
      ∧ (load_pred_labels_from_json lines classes).1.length
          = lines.countP (fun o => o.isSome)
      ∧ ∀ k, lines[k]? = some none →
          (k + 1) ∈ (load_pred_labels_from_json lines classes).2 := by
  have hfold := foldl_predStep_spec classes lines [] [] 1
  have h1 : (load_pred_labels_from_json lines classes).1
      = (lines.filterMap id).map (recordLabels classes) := by
    simp [load_pred_labels_from_json, hfold]
  have h2 : (load_pred_labels_from_json lines classes).2
      = (List.enumFrom 1 lines).filterMap
          (fun p => match p.2 with | none => some p.1 | some _ => none) := by
    simp [load_pred_labels_from_json, hfold]
  refine ⟨h1, h2, ?_, ?_⟩
  · rw [h1, List.length_map, length_filterMap_id]
  · intro k hk
    rw [h2]
    apply List.mem_filterMap.mpr
    refine ⟨(k + 1, none), ?_, rfl⟩
    have henum : (List.enumFrom 1 lines)[k]? = some (1 + k, none) := by
      rw [List.getElem?_enumFrom, hk]
      rfl
    have := List.getElem?_mem henum
    simpa [Nat.add_comm] using this

/-- C9 witness: a single undecodable line yields no rows and the diagnostic
line number 1. -/
theorem load_pred_labels_from_json_skips_witness :
    (1 : Nat) ∈ (load_pred_labels_from_json [none] all_classes).2 :=
  (load_pred_labels_from_json_skips [none] all_classes).2.2.2 0 (by decide)

/-- C10: a record that decodes but lacks the `predict` field parses as the
empty text, hence contributes the empty label list as one full row (appending
such a record appends exactly one row), and that row encodes to the all-zero
multi-hot row — row count and alignment are preserved. -/
theorem load_pred_missing_predict_field (classes vocab : List PyStr)
    (r : PredRecord) (h : r.predict = none)
    (lines : List (Option PredRecord)) :
    recordLabels classes r = []
      ∧ (load_pred_labels_from_json (lines ++ [some r]) classes).1
          = (load_pred_labels_from_json lines classes).1 ++ [[]]
      ∧ encodeRow vocab [] = List.replicate vocab.length 0 := by
  have hrec : recordLabels classes r = [] := by
    simp [recordLabels, h, parse_labels]
  refine ⟨hrec, ?_, ?_⟩
  · have hl := foldl_predStep_spec classes lines [] [] 1
    have hr := foldl_predStep_spec classes (lines ++ [some r]) [] [] 1
    simp [load_pred_labels_from_json, hl, hr, List.filterMap_append, hrec]
  · simp only [encodeRow]
    have : ∀ c : PyStr, (if c ∈ ([] : List PyStr) then (1 : ℤ) else 0) = 0 := by
      intro c; simp
    simp [this, List.map_const']

/-- C10 witness: appending a concrete record without a `predict` field to an
empty file model yields exactly one empty row, encoding to all zeros over the
seven-class vocabulary. -/
theorem load_pred_missing_predict_field_witness :
    recordLabels all_classes ⟨none⟩ = []
      ∧ (load_pred_labels_from_json ([] ++ [some ⟨none⟩]) all_classes).1
          = (load_pred_labels_from_json [] all_classes).1 ++ [[]]
      ∧ encodeRow all_classes [] = List.replicate all_classes.length 0 :=
  load_pred_missing_predict_field all_classes all_classes ⟨none⟩ rfl []

end MultiClassify
